import Mathlib

/-!
Verification of the Azure DevOps SCM adapter (`internal/scm/azuredevopsservice`)
of multi-gitter, against its natural-language specification.

The Go code is shallowly embedded: provider API calls are modelled by
oracle parameters (`Except`-valued responses supplied as arguments), Go
pointers whose nil-ness matters to a claim become `Option`, and a nil-pointer
dereference (a run-time panic in Go) is modelled by `none` / a dedicated
`crash` outcome.  Go enum string types are modelled as `String` so that
unrecognised enum values remain expressible.
-/

namespace AzureDevOps

/-- Generic pull-request status (the calling tool's `scm.PullRequestStatus`). -/
inductive PullRequestStatus where
  | unknown
  | pending
  | success
  | error
  | closed
  | merged
  deriving DecidableEq

/-- Embedding of `convertPullRequestStatus` (pullrequest.go).  The Go enum
types `git.PullRequestStatus` and `git.PullRequestAsyncStatus` are string
types; the SDK constants are the string literals used below.  In the Go
source the inner `switch` stacks the cases for `rejectedByPolicy` and
`failure` above the `conflicts` case with empty bodies; Go `switch` cases do
not fall through, so those two cases exit the switch and reach the trailing
`return scm.PullRequestStatusPending`. -/
def convertPullRequestStatus (prStatus mergeStatus : String) : PullRequestStatus :=
  if prStatus = "notSet" then PullRequestStatus.unknown
  else if prStatus = "active" then
    if mergeStatus = "rejectedByPolicy" then PullRequestStatus.pending
    else if mergeStatus = "failure" then PullRequestStatus.pending
    else if mergeStatus = "conflicts" then PullRequestStatus.error
    else if mergeStatus = "succeeded" then PullRequestStatus.success
    else if mergeStatus = "notSet" then PullRequestStatus.unknown
    else if mergeStatus = "queued" then PullRequestStatus.pending
    else PullRequestStatus.pending
  else if prStatus = "abandoned" then PullRequestStatus.closed
  else if prStatus = "completed" then PullRequestStatus.merged
  else if prStatus = "all" then PullRequestStatus.unknown
  else PullRequestStatus.unknown

/-- Replace the first occurrence of `pat` (as a character list) in the third
argument by `rep`, scanning left to right. -/
def replaceFirstAux (pat rep : List Char) : List Char → List Char
  | [] => []
  | c :: rest =>
    if pat.isPrefixOf (c :: rest) then rep ++ (c :: rest).drop pat.length
    else c :: replaceFirstAux pat rep rest

/-- Replace the first occurrence of `pat` in `s` by `rep`:
Go's `strings.Replace(s, pat, rep, 1)`. -/
def replaceFirst (s pat rep : String) : String :=
  ⟨replaceFirstAux pat.data rep.data s.data⟩

/-- Provider-side repository object (`git.GitRepository`).  Pointer fields
whose nil-ness no claim exercises are modelled as plain values; the
default-branch pointer, whose absence the claims are about, is an `Option`. -/
structure GitRepository where
  sshUrl : String
  remoteUrl : String
  id : String
  name : String
  projectId : String
  projectName : String
  isDisabled : Bool
  isFork : Option Bool
  defaultBranch : Option String
  deriving DecidableEq

/-- The adapter's repository shape, new revision (repository struct embedding
`project`, from the revision of repository.go bundled with pullrequest.go). -/
structure Repository where
  projectId : String
  projectName : String
  id : String
  url : String
  name : String
  defaultBranch : String
  defaultBranchRef : String
  deriving DecidableEq

/-- The adapter's repository shape, old revision (flat struct). -/
structure RepositoryOld where
  id : String
  url : String
  name : String
  projectName : String
  projectId : String
  defaultBranch : String
  deriving DecidableEq

/-- Embedding of `convertRepository`, new revision: a repository whose
`DefaultBranch` pointer is nil is rejected with a descriptive error. -/
def convertRepository (sshAuth : Bool) (r : GitRepository) : Except String Repository :=
  match r.defaultBranch with
  | none =>
    Except.error ("repository " ++ r.projectName ++ "/" ++ r.name ++ " is not initialized")
  | some db =>
    let cloneURL := if sshAuth then r.sshUrl else r.remoteUrl
    Except.ok
      { projectId := r.projectId
        projectName := r.projectName
        id := r.id
        url := cloneURL
        name := r.name
        defaultBranch := replaceFirst db "refs/heads/" ""
        defaultBranchRef := db }

/-- Embedding of `convertRepository`, old revision (repository.go): the code
dereferences `*nativeRepository.DefaultBranch` without a nil check, so a
missing default branch is a run-time panic, modelled as `none`. -/
def convertRepositoryOld (sshAuth : Bool) (r : GitRepository) : Option RepositoryOld :=
  match r.defaultBranch with
  | none => none
  | some db =>
    let cloneURL := if sshAuth then r.sshUrl else r.remoteUrl
    some
      { id := r.id
        projectId := r.projectId
        url := cloneURL
        name := r.name
        projectName := r.projectName
        defaultBranch := db }

/-- A concrete enabled, non-fork provider repository named `repo1`. -/
def sampleListedRepo : GitRepository :=
  { sshUrl := "git@ssh.dev.azure.com:v3/org/P/repo1"
    remoteUrl := "https://dev.azure.com/org/P/_git/repo1"
    id := "repo-id-9"
    name := "repo1"
    projectId := "proj-id-9"
    projectName := "P"
    isDisabled := false
    isFork := none
    defaultBranch := some "refs/heads/main" }

/-- A concrete provider repository with an absent default branch. -/
def repoWithoutDefaultBranch : GitRepository :=
  { sshUrl := "git@ssh.dev.azure.com:v3/org/proj1/repo1"
    remoteUrl := "https://dev.azure.com/org/proj1/_git/repo1"
    id := "repo-id-1"
    name := "repo1"
    projectId := "proj-id-1"
    projectName := "proj1"
    isDisabled := false
    isFork := none
    defaultBranch := none }

/-- The adapter's pull-request shape (`pullRequest` in pullrequest.go). -/
structure PullRequest where
  projectName : String
  repositoryName : String
  id : Int
  status : PullRequestStatus
  isDraft : Bool
  webURL : String
  sourceGitRef : String
  targetGitRef : String
  lastMergeSourceCommitId : String
  deriving DecidableEq

/-- The calling tool's new-pull-request description (`scm.NewPullRequest`),
restricted to the fields this adapter reads. -/
structure NewPullRequest where
  title : String
  body : String
  head : String
  base : String
  draft : Bool
  reviewers : List String
  teamReviewers : List String
  assignees : List String
  labels : List String
  deriving DecidableEq

/-- The body of the provider update call (`git.GitPullRequestToUpdate`) built
by `UpdatePullRequest`: title and description are always set, the target ref
only in the branch-change case. -/
structure UpdatePrRequest where
  title : String
  description : String
  targetRefName : Option String
  deriving DecidableEq

/-- The observable provider interactions of one `UpdatePullRequest` call on
its success path: the update request body, and whether the reviewer
reconciliation, auto-complete, and label reconciliation calls are issued. -/
structure UpdateCalls where
  request : UpdatePrRequest
  reviewersReconciled : Bool
  autoCompleteSet : Bool
  labelsReconciled : Bool
  deriving DecidableEq

/-- Embedding of `UpdatePullRequest` (azuredevopsservice.go): which provider
calls the function issues, as a function of the existing pull request and the
caller-supplied update.  Provider calls are modelled as succeeding (an error
would abort before the later calls; the claims concern the success path). -/
def UpdatePullRequestCalls (adoPr : PullRequest) (updatedPR : NewPullRequest) : UpdateCalls :=
  let targetRef := "refs/heads/" ++ updatedPR.base
  { request :=
      if adoPr.targetGitRef ≠ targetRef then
        { title := updatedPR.title, description := updatedPR.body, targetRefName := some targetRef }
      else
        { title := updatedPR.title, description := updatedPR.body, targetRefName := none }
    reviewersReconciled :=
      !updatedPR.assignees.isEmpty || !updatedPR.teamReviewers.isEmpty ||
        !updatedPR.reviewers.isEmpty
    autoCompleteSet := !updatedPR.draft
    labelsReconciled := !updatedPR.labels.isEmpty }

/-- A git ref as returned by the provider's `GetRefs` (name and object id). -/
structure GitRef where
  name : String
  objectId : String
  deriving DecidableEq

/-- One provider call issued by `ClosePullRequest`. -/
inductive CloseCall where
  | setStatusAbandoned (project repo : String) (id : Int)
  | getRefs (project repo filter : String)
  | updateRef (project repo refName oldObjectId newObjectId : String)
  deriving DecidableEq

/-- The provider's tombstone object id used to delete a ref. -/
def zeroObjectId : String := "0000000000000000000000000000000000000000"

/-- Embedding of `ClosePullRequest` (azuredevopsservice.go).  The three
provider responses (abandon update, ref lookup, ref update) are supplied as
oracle arguments; the result is the list of issued calls and the returned
error value.  An empty ref lookup is logged and the function returns
success. -/
def ClosePullRequest (adoPr : PullRequest)
    (abandonResult : Except String Unit)
    (refsResult : Except String (List GitRef))
    (updateRefsResult : Except String Unit) :
    List CloseCall × Except String Unit :=
  let c1 := CloseCall.setStatusAbandoned adoPr.projectName adoPr.repositoryName adoPr.id
  match abandonResult with
  | Except.error e => ([c1], Except.error e)
  | Except.ok _ =>
    let toSearch := replaceFirst adoPr.sourceGitRef "refs/" ""
    let c2 := CloseCall.getRefs adoPr.projectName adoPr.repositoryName toSearch
    match refsResult with
    | Except.error e => ([c1, c2], Except.error e)
    | Except.ok [] => ([c1, c2], Except.ok ())
    | Except.ok (ref :: _) =>
      let c3 := CloseCall.updateRef adoPr.projectName adoPr.repositoryName
        ref.name ref.objectId zeroObjectId
      match updateRefsResult with
      | Except.error e => ([c1, c2, c3], Except.error e)
      | Except.ok _ => ([c1, c2, c3], Except.ok ())

/-- Embedding of `ForkRepository` (azuredevopsservice.go): the body is a bare
`return nil, nil`, so no provider call is made and both results are nil.  The
first component is the (empty) list of provider calls, then the returned
repository and the returned error. -/
def ForkRepository (_repo : Repository) (_newOwner : String) :
    List String × Option Repository × Option String :=
  ([], none, none)

/-- Embedding of `getPullRequestLabels` (pullrequest.go).  The Go code runs
`labels = make([]string, len(*tags))` — allocating `len` zero-value entries —
and then `append`s each tag name, so the returned slice is `len` empty
strings followed by the tag names. -/
def getPullRequestLabels (tags : List String) : List String :=
  List.replicate tags.length "" ++ tags

/-- Go map assignment `m[k] = v` on a map modelled as an association list:
overwrite the existing entry, or add one. -/
def mapSet : List (String × Bool) → String → Bool → List (String × Bool)
  | [], k, v => [(k, v)]
  | (k', v') :: rest, k, v =>
    if k' = k then (k, v) :: rest else (k', v') :: mapSet rest k v

/-- Go map membership test `_, exist := m[k]`. -/
def mapHasKey (m : List (String × Bool)) (k : String) : Bool :=
  m.any (fun kv => kv.1 == k)

/-- Result of one label-reconciliation run: the labels passed to provider
create calls, the labels passed to provider delete calls, and the provider's
label set afterwards.  Go iterates the delete loop over a map in unspecified
order; the embedding fixes insertion order, which leaves the multiset of
calls unchanged. -/
structure LabelReconcileResult where
  creates : List String
  deletes : List String
  finalLabels : List String
  deriving DecidableEq

/-- Embedding of `setPullRequestLabels` (pullrequest.go): fetch current
labels (through the padded `getPullRequestLabels`), mark each fetched label
not-to-keep, walk the desired labels marking existing ones kept and creating
missing ones, then delete every label still marked not-to-keep.  A provider
delete of a label the pull request does not carry fails and is logged, so it
leaves the provider state unchanged. -/
def setPullRequestLabels (providerLabels desired : List String) : LabelReconcileResult :=
  let currentLabels := getPullRequestLabels providerLabels
  let existingLabels := currentLabels.foldl (fun m label => mapSet m label false) []
  let afterAdd := desired.foldl
    (fun (acc : List (String × Bool) × List String) newLabel =>
      if mapHasKey acc.1 newLabel then
        (mapSet acc.1 newLabel true, acc.2)
      else
        (mapSet acc.1 newLabel true, acc.2 ++ [newLabel]))
    (existingLabels, [])
  let deletes := afterAdd.1.filterMap (fun kv => if kv.2 then none else some kv.1)
  { creates := afterAdd.2
    deletes := deletes
    finalLabels := (providerLabels ++ afterAdd.2).filter (fun l => !(deletes.contains l)) }

/-- Result of one reviewer-reconciliation run, by reviewer identity id. -/
structure ReviewerReconcileResult where
  creates : List String
  deletes : List String
  finalReviewers : List String
  deriving DecidableEq

/-- Embedding of `setPullRequestReviewers` (pullrequest.go): the same
keep-map algorithm as for labels, keyed by reviewer id, except that the
current set is fetched directly from `GetPullRequestReviewers` (no padding
artifact). -/
def setPullRequestReviewers (providerReviewerIds desiredIds : List String) :
    ReviewerReconcileResult :=
  let existingReviewersMap := providerReviewerIds.foldl (fun m rid => mapSet m rid false) []
  let afterAdd := desiredIds.foldl
    (fun (acc : List (String × Bool) × List String) rid =>
      if mapHasKey acc.1 rid then
        (mapSet acc.1 rid true, acc.2)
      else
        (mapSet acc.1 rid true, acc.2 ++ [rid]))
    (existingReviewersMap, [])
  let deletes := afterAdd.1.filterMap (fun kv => if kv.2 then none else some kv.1)
  { creates := afterAdd.2
    deletes := deletes
    finalReviewers := (providerReviewerIds ++ afterAdd.2).filter (fun rid => !(deletes.contains rid)) }

/-- A resolved identity (`descriptor` in identity.go). -/
structure Descriptor where
  vsId : Option String
  imsId : Option String
  displayName : Option String
  type : Option String
  deriving DecidableEq

/-- A legacy identity as returned by the identity client
(`identity.Identity`), restricted to the fields the adapter reads. -/
structure LegacyIdentity where
  id : String
  subjectDescriptor : Option String
  providerDisplayName : Option String
  deriving DecidableEq

/-- A graph subject as returned by `QuerySubjects`
(`graph.GraphSubjectQueryResult` entries), restricted to the fields read. -/
structure GraphSubject where
  descriptor : String
  displayName : Option String
  subjectKind : Option String
  deriving DecidableEq

/-- The descriptor built by `getLegacyIdentities` from a first match. -/
def legacyDescriptor (p : LegacyIdentity) : Descriptor :=
  { vsId := p.subjectDescriptor
    imsId := some p.id
    displayName := p.providerDisplayName
    type := none }

/-- Embedding of `getLegacyIdentities` (identity.go): for each wanted name,
query the identity client (oracle `readIdentities`); on at least one match
take the first, on zero matches log a warning and drop the name; a provider
error aborts the whole batch. -/
def getLegacyIdentities (readIdentities : String → Except String (List LegacyIdentity)) :
    List String → Except String (List Descriptor)
  | [] => Except.ok []
  | w :: ws =>
    match readIdentities w with
    | Except.error e => Except.error e
    | Except.ok [] => getLegacyIdentities readIdentities ws
    | Except.ok (p :: _) =>
      match getLegacyIdentities readIdentities ws with
      | Except.error e => Except.error e
      | Except.ok rest => Except.ok (legacyDescriptor p :: rest)

/-- The descriptor built by `getIdentities` from a first graph match.  Its
`IMSId` is nil at this point; see `getIdentities` for why it stays nil. -/
def graphDescriptor (s : GraphSubject) : Descriptor :=
  { vsId := some s.descriptor
    imsId := none
    displayName := s.displayName
    type := s.subjectKind }

/-- The per-name loop of `getIdentities` (identity.go): accumulate matched
graph descriptors' ids (for the later batch call) and the descriptors
themselves; zero matches are logged and dropped, a provider error aborts. -/
def getIdentitiesLoop (querySubjects : String → Except String (List GraphSubject)) :
    List String → Except String (List String × List Descriptor)
  | [] => Except.ok ([], [])
  | w :: ws =>
    match querySubjects w with
    | Except.error e => Except.error e
    | Except.ok possible =>
      match getIdentitiesLoop querySubjects ws with
      | Except.error e => Except.error e
      | Except.ok (vsid, descs) =>
        match possible with
        | [] => Except.ok (vsid, descs)
        | s :: _ => Except.ok (s.descriptor :: vsid, graphDescriptor s :: descs)

/-- Embedding of `getIdentities` (identity.go): run the graph query loop,
then the legacy batch lookup.  The final Go loop `for _, descriptor := range
descriptors` binds each element by value, so the assignment
`descriptor.IMSId = &idAsString` writes into a per-iteration copy and the
returned slice is unchanged; the embedding therefore returns the descriptors
as accumulated by the loop. -/
def getIdentities (querySubjects : String → Except String (List GraphSubject))
    (readIdentityBatch : List String → Except String (List LegacyIdentity))
    (identities : List String) : Except String (List Descriptor) :=
  match getIdentitiesLoop querySubjects identities with
  | Except.error e => Except.error e
  | Except.ok (vsid, descriptors) =>
    match readIdentityBatch vsid with
    | Except.error e => Except.error e
    | Except.ok _ => Except.ok descriptors

/-- A reviewer entry passed to pull-request APIs (`git.IdentityRefWithVote`),
restricted to the fields the adapter sets. -/
structure IdentityRefWithVote where
  id : Option String
  vote : Int
  isRequired : Bool
  deriving DecidableEq

/-- Embedding of `converToIdentityWithVoteForNewPullRequest` (identity.go),
keeping the source's (misspelled) name: each descriptor's legacy id with a
zero vote and the given required flag. -/
def converToIdentityWithVoteForNewPullRequest (descriptors : List Descriptor)
    (isRequired : Bool) : List IdentityRefWithVote :=
  descriptors.map (fun d => { id := d.imsId, vote := 0, isRequired := isRequired })

/-- The service's per-run identity cache (`Cache` in azuredevopsservice.go).
The four Go pointer fields start nil; `prefetchDone` models the state of the
`sync.Once` guard. -/
structure Cache where
  author : Option Descriptor
  reviewers : Option (List IdentityRefWithVote)
  teamReviewers : Option (List IdentityRefWithVote)
  assignees : Option (List IdentityRefWithVote)
  prefetchDone : Bool
  deriving DecidableEq

/-- The cache of a freshly constructed service (`Cache{}` in `New`). -/
def emptyCache : Cache :=
  { author := none, reviewers := none, teamReviewers := none, assignees := none,
    prefetchDone := false }

/-- Embedding of `PrefetchData` (azuredevopsservice.go): resolve the current
user, then the reviewer, team-reviewer, and assignee identity lists, writing
each cache field as soon as it is available; the first failing step leaves
the remaining fields untouched and returns its error. -/
def PrefetchData (getCurrentIdentity : Except String Descriptor)
    (readIdentities : String → Except String (List LegacyIdentity))
    (forPR : NewPullRequest) (c : Cache) : Cache × Except String Unit :=
  match getCurrentIdentity with
  | Except.error e => (c, Except.error e)
  | Except.ok author =>
    let c := { c with author := some author }
    match getLegacyIdentities readIdentities forPR.reviewers with
    | Except.error e => (c, Except.error e)
    | Except.ok userReviewers =>
      let c := { c with
        reviewers := some (converToIdentityWithVoteForNewPullRequest userReviewers false) }
      match getLegacyIdentities readIdentities forPR.teamReviewers with
      | Except.error e => (c, Except.error e)
      | Except.ok teamReviewers =>
        let c := { c with
          teamReviewers := some (converToIdentityWithVoteForNewPullRequest teamReviewers false) }
        match getLegacyIdentities readIdentities forPR.assignees with
        | Except.error e => (c, Except.error e)
        | Except.ok assignees =>
          ({ c with
              assignees := some (converToIdentityWithVoteForNewPullRequest assignees true) },
            Except.ok ())

/-- How the cache-dependent part of `CreatePullRequest` terminates: either
the three cached reviewer lists are available and are concatenated for the
provider create call, or a still-nil cache pointer is dereferenced — a Go
run-time panic, modelled as `crash`.  (`goError` would be a returned Go
error; the prefetch path never produces one because its error is
discarded.) -/
inductive CallOutcome where
  | ok (reviewers : List IdentityRefWithVote)
  | goError (e : String)
  | crash
  deriving DecidableEq

/-- Embedding of the prefetch-and-dereference part of `CreatePullRequest`
(azuredevopsservice.go).  `g.Cache.prefetch.Do(func() { g.PrefetchData(...) })`
runs the prefetch only if it has never run, and the closure discards
`PrefetchData`'s error.  The subsequent
`append(reviewers, *g.Cache.Reviewers...)` (and team reviewers, assignees)
dereferences the cached pointers unconditionally.  The third component
reports whether this call ran the prefetch. -/
def CreatePullRequestStep (getCurrentIdentity : Except String Descriptor)
    (readIdentities : String → Except String (List LegacyIdentity))
    (newPR : NewPullRequest) (c : Cache) : Cache × CallOutcome × Bool :=
  let ran := !c.prefetchDone
  let c :=
    if c.prefetchDone then c
    else { (PrefetchData getCurrentIdentity readIdentities newPR c).1 with prefetchDone := true }
  match c.reviewers, c.teamReviewers, c.assignees with
  | some r, some t, some asg => (c, CallOutcome.ok (r ++ t ++ asg), ran)
  | _, _, _ => (c, CallOutcome.crash, ran)

/-- Go map append used by `ParseRepositoryReference`: append a repository
name to the project's entry, creating the entry when absent. -/
def addRepositoryRef : List (String × List String) → String → String →
    List (String × List String)
  | [], projectName, repositoryName => [(projectName, [repositoryName])]
  | (k, vs) :: rest, projectName, repositoryName =>
    if k = projectName then (k, vs ++ [repositoryName]) :: rest
    else (k, vs) :: addRepositoryRef rest projectName repositoryName

/-- First loop of `ParseRepositoryReference`: each `project/repository`
reference is split on `/`; anything but exactly two parts is a parse
error. -/
def parseRepoRefs (m : List (String × List String)) :
    List String → Except String (List (String × List String))
  | [] => Except.ok m
  | ref :: refs =>
    match ref.splitOn "/" with
    | [projectName, repositoryName] =>
      parseRepoRefs (addRepositoryRef m projectName repositoryName) refs
    | _ => Except.error ("could not parse repository reference: " ++ ref)

/-- Second loop of `ParseRepositoryReference`: every project of the
allow-list that has no entry yet gets an empty repository sub-list. -/
def ensureProjects (m : List (String × List String)) :
    List String → List (String × List String)
  | [] => m
  | p :: ps => ensureProjects (if (m.lookup p).isSome then m else m ++ [(p, [])]) ps

/-- Embedding of `ParseRepositoryReference` (azuredevopsservice.go),
returning the project-to-repositories map; the function's first Go return
value is this map's key set. -/
def ParseRepositoryReference (projectToFetch repositoryToFetch : List String) :
    Except String (List (String × List String)) :=
  match parseRepoRefs [] repositoryToFetch with
  | Except.error e => Except.error e
  | Except.ok m => Except.ok (ensureProjects m projectToFetch)

/-- Embedding of the per-project repository loop of `GetRepositories`
(azuredevopsservice.go): a disabled repository is skipped; a fork is skipped
when `SkipForks` is set; a repository is then converted and collected when
its project's configured sub-list names it, or when that sub-list is empty;
a conversion error aborts the whole listing. -/
def GetRepositoriesInProject (sshAuth skipForks : Bool)
    (repoMap : List (String × List String)) (projectName : String) :
    List GitRepository → Except String (List Repository)
  | [] => Except.ok []
  | r :: rest =>
    if r.isDisabled then
      GetRepositoriesInProject sshAuth skipForks repoMap projectName rest
    else if skipForks && r.isFork.getD false then
      GetRepositoriesInProject sshAuth skipForks repoMap projectName rest
    else
      match repoMap.lookup projectName with
      | some repos =>
        if !repos.isEmpty && repos.contains r.name then
          match convertRepository sshAuth r with
          | Except.error e => Except.error e
          | Except.ok rep =>
            match GetRepositoriesInProject sshAuth skipForks repoMap projectName rest with
            | Except.error e => Except.error e
            | Except.ok reps => Except.ok (rep :: reps)
        else if repos.isEmpty then
          match convertRepository sshAuth r with
          | Except.error e => Except.error e
          | Except.ok rep =>
            match GetRepositoriesInProject sshAuth skipForks repoMap projectName rest with
            | Except.error e => Except.error e
            | Except.ok reps => Except.ok (rep :: reps)
        else
          GetRepositoriesInProject sshAuth skipForks repoMap projectName rest
      | none => GetRepositoriesInProject sshAuth skipForks repoMap projectName rest

/-- Spec-side inclusion predicate, following the claim's words: a repository
of a resolved project with configured sub-list `subList` is listed iff it is
not disabled, it is not a fork being skipped, and it is named in the
sub-list or the sub-list is empty (no explicit selection). -/
def claimedRepositoryFilter (skipForks : Bool) (subList : List String)
    (r : GitRepository) : Bool :=
  !r.isDisabled && !(skipForks && r.isFork.getD false) &&
    (subList.isEmpty || subList.contains r.name)

/-- Spec-side sequential conversion of a repository list, propagating the
first conversion error. -/
def convertAll (sshAuth : Bool) : List GitRepository → Except String (List Repository)
  | [] => Except.ok []
  | r :: rest =>
    match convertRepository sshAuth r with
    | Except.error e => Except.error e
    | Except.ok rep =>
      match convertAll sshAuth rest with
      | Except.error e => Except.error e
      | Except.ok reps => Except.ok (rep :: reps)

/-- C1 counterexample: the claim's table sends active lifecycle with failure
merge status to the error status, but `convertPullRequestStatus` returns
pending there (the stacked empty switch cases do not fall through), so the
claim as stated is false. -/
theorem convertPullRequestStatus_claim_cex :
    convertPullRequestStatus "active" "failure" ≠ PullRequestStatus.error ∧
    convertPullRequestStatus "active" "failure" = PullRequestStatus.pending :=
  ⟨by decide, rfl⟩

/-- C1 (amended): the status conversion is a pure function realising the
code's actual table: not-set lifecycle maps to unknown; active with succeeded
maps to success; active with conflicts maps to error; active with not-set
merge status maps to unknown; active with any other merge status (queued,
failure, rejected-by-policy, or unrecognised) maps to pending; abandoned maps
to closed; completed maps to merged; the all sentinel and any unrecognised
lifecycle map to unknown. -/
theorem convertPullRequestStatus_table :
    (∀ m, convertPullRequestStatus "notSet" m = PullRequestStatus.unknown) ∧
    convertPullRequestStatus "active" "succeeded" = PullRequestStatus.success ∧
    convertPullRequestStatus "active" "conflicts" = PullRequestStatus.error ∧
    convertPullRequestStatus "active" "notSet" = PullRequestStatus.unknown ∧
    (∀ m, m ≠ "conflicts" → m ≠ "succeeded" → m ≠ "notSet" →
      convertPullRequestStatus "active" m = PullRequestStatus.pending) ∧
    (∀ m, convertPullRequestStatus "abandoned" m = PullRequestStatus.closed) ∧
    (∀ m, convertPullRequestStatus "completed" m = PullRequestStatus.merged) ∧
    (∀ m, convertPullRequestStatus "all" m = PullRequestStatus.unknown) ∧
    (∀ l m, l ≠ "notSet" → l ≠ "active" → l ≠ "abandoned" → l ≠ "completed" → l ≠ "all" →
      convertPullRequestStatus l m = PullRequestStatus.unknown) := by
  refine ⟨fun m => rfl, rfl, rfl, rfl, ?_, fun m => rfl, fun m => rfl, fun m => rfl, ?_⟩
  · intro m h1 h2 h3
    unfold convertPullRequestStatus
    rw [if_neg (by decide : ¬ ("active" : String) = "notSet"), if_pos rfl]
    split_ifs <;> simp_all
  · intro l m h1 h2 h3 h4 h5
    unfold convertPullRequestStatus
    split_ifs <;> simp_all

/-- C1 witness: the amended table evaluated at an active pull request with a
failure merge status and at an unrecognised lifecycle value. -/
theorem convertPullRequestStatus_table_witness :
    convertPullRequestStatus "active" "failure" = PullRequestStatus.pending ∧
    convertPullRequestStatus "bogus" "bogus" = PullRequestStatus.unknown :=
  ⟨convertPullRequestStatus_table.2.2.2.2.1 "failure" (by decide) (by decide) (by decide),
   convertPullRequestStatus_table.2.2.2.2.2.2.2.2 "bogus" "bogus"
     (by decide) (by decide) (by decide) (by decide) (by decide)⟩

/-- C2: label reconciliation is not idempotent.  With provider labels
`["A"]` and desired labels `["A"]` the first run leaves the provider state
unchanged, yet the second run (like the first) still issues a delete call for
the empty-string artifact that `getPullRequestLabels` prepends (its
`make([]string, len)` followed by `append`), while reviewer reconciliation on
the same shape of input issues no call at all on the second run. -/
theorem setPullRequestLabels_second_run :
    (setPullRequestLabels ["A"] ["A"]).finalLabels = ["A"] ∧
    (setPullRequestLabels (setPullRequestLabels ["A"] ["A"]).finalLabels ["A"]).creates = [] ∧
    (setPullRequestLabels (setPullRequestLabels ["A"] ["A"]).finalLabels ["A"]).deletes = [""] ∧
    (setPullRequestReviewers ["id1"] ["id1"]).finalReviewers = ["id1"] ∧
    (setPullRequestReviewers (setPullRequestReviewers ["id1"] ["id1"]).finalReviewers
      ["id1"]).creates = [] ∧
    (setPullRequestReviewers (setPullRequestReviewers ["id1"] ["id1"]).finalReviewers
      ["id1"]).deletes = [] :=
  ⟨rfl, rfl, rfl, rfl, rfl, rfl⟩

/-- C3 counterexample: for a provider repository with an absent default
branch, the old-revision conversion does not return a repository without
error — it dereferences the nil pointer (a run-time panic, modelled as
`none`) — refuting the claim's "silently proceeds". -/
theorem convertRepositoryOld_silent_pass_cex :
    convertRepositoryOld false repoWithoutDefaultBranch = none ∧
    ¬ ∃ rep, convertRepositoryOld false repoWithoutDefaultBranch = some rep := by
  refine ⟨rfl, fun h => ?_⟩
  obtain ⟨rep, hrep⟩ := h
  exact Option.noConfusion hrep

/-- C3 (amended): for every provider repository whose default-branch field is
absent, conversion fails with a descriptive error in the new revision and
crashes on a nil-pointer dereference (returns no repository) in the old
revision; in both revisions no repository lacking an initialized default
branch is accepted as usable. -/
theorem convertRepository_requires_default_branch (sshAuth : Bool) (r : GitRepository)
    (h : r.defaultBranch = none) :
    convertRepository sshAuth r =
      Except.error ("repository " ++ r.projectName ++ "/" ++ r.name ++ " is not initialized") ∧
    convertRepositoryOld sshAuth r = none := by
  constructor <;> simp only [convertRepository, convertRepositoryOld, h]

/-- C3 witness: the amended behaviour at a concrete repository without a
default branch. -/
theorem convertRepository_requires_default_branch_witness :
    convertRepository false repoWithoutDefaultBranch =
      Except.error ("repository " ++ repoWithoutDefaultBranch.projectName ++ "/" ++
        repoWithoutDefaultBranch.name ++ " is not initialized") ∧
    convertRepositoryOld false repoWithoutDefaultBranch = none :=
  convertRepository_requires_default_branch false repoWithoutDefaultBranch rfl

/-- C4 counterexample: an update whose reviewer, team-reviewer, assignee and
label sets are all empty and whose draft flag is false still enables provider
auto-complete, refuting the claim that with empty sets no auto-complete call
is issued. -/
theorem UpdatePullRequest_autocomplete_cex :
    (UpdatePullRequestCalls
        { projectName := "p", repositoryName := "r", id := 1,
          status := PullRequestStatus.success, isDraft := false, webURL := "",
          sourceGitRef := "refs/heads/topic", targetGitRef := "refs/heads/main",
          lastMergeSourceCommitId := "c0" }
        { title := "t", body := "b", head := "topic", base := "main", draft := false,
          reviewers := [], teamReviewers := [], assignees := [],
          labels := [] }).reviewersReconciled = false ∧
    (UpdatePullRequestCalls
        { projectName := "p", repositoryName := "r", id := 1,
          status := PullRequestStatus.success, isDraft := false, webURL := "",
          sourceGitRef := "refs/heads/topic", targetGitRef := "refs/heads/main",
          lastMergeSourceCommitId := "c0" }
        { title := "t", body := "b", head := "topic", base := "main", draft := false,
          reviewers := [], teamReviewers := [], assignees := [],
          labels := [] }).labelsReconciled = false ∧
    (UpdatePullRequestCalls
        { projectName := "p", repositoryName := "r", id := 1,
          status := PullRequestStatus.success, isDraft := false, webURL := "",
          sourceGitRef := "refs/heads/topic", targetGitRef := "refs/heads/main",
          lastMergeSourceCommitId := "c0" }
        { title := "t", body := "b", head := "topic", base := "main", draft := false,
          reviewers := [], teamReviewers := [], assignees := [],
          labels := [] }).autoCompleteSet = true :=
  ⟨rfl, rfl, rfl⟩

/-- C4 (amended): during a pull-request update, reviewer reconciliation is
performed iff the caller supplied a non-empty reviewer, team-reviewer, or
assignee set; label reconciliation is performed iff the caller supplied a
non-empty label set; and provider auto-complete is enabled iff the updated
pull request is not a draft, regardless of the reviewer and label sets. -/
theorem UpdatePullRequest_gating (adoPr : PullRequest) (upd : NewPullRequest) :
    ((UpdatePullRequestCalls adoPr upd).reviewersReconciled = true ↔
      (upd.reviewers ≠ [] ∨ upd.teamReviewers ≠ [] ∨ upd.assignees ≠ [])) ∧
    ((UpdatePullRequestCalls adoPr upd).labelsReconciled = true ↔ upd.labels ≠ []) ∧
    ((UpdatePullRequestCalls adoPr upd).autoCompleteSet = true ↔ upd.draft = false) := by
  have hb : ∀ l : List String, (!l.isEmpty) = true ↔ l ≠ [] := by
    intro l; cases l <;> simp
  simp only [UpdatePullRequestCalls]
  refine ⟨?_, ?_, ?_⟩
  · simp only [Bool.or_eq_true, hb]
    tauto
  · exact hb _
  · cases upd.draft <;> simp

/-- C6: for every pull-request update, the update request body always carries
the caller's title and body, and carries the new target ref exactly when it
differs from the pull request's current target ref (and omits it when they
are equal). -/
theorem UpdatePullRequest_request_fields (adoPr : PullRequest) (upd : NewPullRequest) :
    (UpdatePullRequestCalls adoPr upd).request.title = upd.title ∧
    (UpdatePullRequestCalls adoPr upd).request.description = upd.body ∧
    ((UpdatePullRequestCalls adoPr upd).request.targetRefName =
        some ("refs/heads/" ++ upd.base) ↔
      adoPr.targetGitRef ≠ "refs/heads/" ++ upd.base) ∧
    ((UpdatePullRequestCalls adoPr upd).request.targetRefName = none ↔
      adoPr.targetGitRef = "refs/heads/" ++ upd.base) := by
  by_cases h : adoPr.targetGitRef = "refs/heads/" ++ upd.base <;>
    simp [UpdatePullRequestCalls, h]

/-- C7: closing a pull request first issues the lifecycle update to
abandoned, then looks up the source branch ref (with the `refs/`-stripped
filter) and, when a ref is found, deletes it by updating its object id to the
all-zero object id; when the lookup returns no ref, no further call is made
and the close returns success. -/
theorem ClosePullRequest_spec (adoPr : PullRequest) (u : Except String Unit)
    (ref : GitRef) (rest : List GitRef) :
    ClosePullRequest adoPr (Except.ok ()) (Except.ok []) u =
      ([CloseCall.setStatusAbandoned adoPr.projectName adoPr.repositoryName adoPr.id,
        CloseCall.getRefs adoPr.projectName adoPr.repositoryName
          (replaceFirst adoPr.sourceGitRef "refs/" "")],
        Except.ok ()) ∧
    ClosePullRequest adoPr (Except.ok ()) (Except.ok (ref :: rest)) (Except.ok ()) =
      ([CloseCall.setStatusAbandoned adoPr.projectName adoPr.repositoryName adoPr.id,
        CloseCall.getRefs adoPr.projectName adoPr.repositoryName
          (replaceFirst adoPr.sourceGitRef "refs/" ""),
        CloseCall.updateRef adoPr.projectName adoPr.repositoryName
          ref.name ref.objectId zeroObjectId],
        Except.ok ()) :=
  ⟨rfl, rfl⟩

/-- C9: when the one-time identity prefetch fails during the first
create-pull-request call, the error is discarded by the single-execution
guard (the call does not return a Go error: it crashes on the nil cached
pointers instead, so the unsafe dereference is reachable), the guard is
marked done with the reviewer caches still nil, and a second call does not
re-attempt the prefetch and crashes the same way. -/
theorem CreatePullRequest_prefetch_error_swallowed (e : String)
    (readIdentities : String → Except String (List LegacyIdentity))
    (newPR : NewPullRequest) :
    (CreatePullRequestStep (Except.error e) readIdentities newPR emptyCache).2.1 =
      CallOutcome.crash ∧
    (CreatePullRequestStep (Except.error e) readIdentities newPR emptyCache).2.2 = true ∧
    (CreatePullRequestStep (Except.error e) readIdentities newPR emptyCache).1.prefetchDone =
      true ∧
    (CreatePullRequestStep (Except.error e) readIdentities newPR emptyCache).1.author = none ∧
    (CreatePullRequestStep (Except.error e) readIdentities newPR emptyCache).1.reviewers =
      none ∧
    (CreatePullRequestStep (Except.error e) readIdentities newPR
        emptyCache).1.teamReviewers = none ∧
    (CreatePullRequestStep (Except.error e) readIdentities newPR emptyCache).1.assignees =
      none ∧
    (CreatePullRequestStep (Except.error e) readIdentities newPR
        (CreatePullRequestStep (Except.error e) readIdentities newPR emptyCache).1).2.2 =
      false ∧
    (CreatePullRequestStep (Except.error e) readIdentities newPR
        (CreatePullRequestStep (Except.error e) readIdentities newPR emptyCache).1).2.1 =
      CallOutcome.crash :=
  ⟨rfl, rfl, rfl, rfl, rfl, rfl, rfl, rfl, rfl⟩

/-- C10: for every repository and new-owner name, `ForkRepository` performs
no provider call and returns a nil repository together with a nil error. -/
theorem ForkRepository_noop (repo : Repository) (newOwner : String) :
    ForkRepository repo newOwner = ([], none, none) :=
  rfl

/-- With an always-succeeding identity client, `getLegacyIdentities` returns
exactly the first match of every name that has one, dropping no-match
names. -/
theorem getLegacyIdentities_ok (lk : String → List LegacyIdentity) :
    ∀ ws, getLegacyIdentities (fun w => Except.ok (lk w)) ws =
      Except.ok (ws.filterMap (fun w => ((lk w).head?).map legacyDescriptor)) := by
  intro ws
  induction ws with
  | nil => rfl
  | cons w ws ih =>
    cases hlk : lk w with
    | nil => simp [getLegacyIdentities, hlk, ih]
    | cons p t => simp [getLegacyIdentities, hlk, ih]

/-- An error of `getLegacyIdentities` always originates from a provider call
on one of the requested names. -/
theorem getLegacyIdentities_error (lookup : String → Except String (List LegacyIdentity)) :
    ∀ ws e, getLegacyIdentities lookup ws = Except.error e →
      ∃ w ∈ ws, lookup w = Except.error e := by
  intro ws
  induction ws with
  | nil => intro e h; simp [getLegacyIdentities] at h
  | cons w ws ih =>
    intro e h
    cases hlk : lookup w with
    | error e2 =>
      simp only [getLegacyIdentities, hlk] at h
      injection h with h2
      subst h2
      exact ⟨w, List.mem_cons_self w ws, hlk⟩
    | ok possible =>
      cases possible with
      | nil =>
        simp only [getLegacyIdentities, hlk] at h
        obtain ⟨w2, hw2, hl2⟩ := ih e h
        exact ⟨w2, List.mem_cons_of_mem w hw2, hl2⟩
      | cons p t =>
        cases hr : getLegacyIdentities lookup ws with
        | error e2 =>
          simp only [getLegacyIdentities, hlk, hr] at h
          injection h with h2
          subst h2
          obtain ⟨w2, hw2, hl2⟩ := ih e2 hr
          exact ⟨w2, List.mem_cons_of_mem w hw2, hl2⟩
        | ok rest => simp [getLegacyIdentities, hlk, hr] at h

/-- With an always-succeeding graph client, the `getIdentities` loop returns
the matched subject ids and descriptors of every name with a match. -/
theorem getIdentitiesLoop_ok (gq : String → List GraphSubject) :
    ∀ ws, getIdentitiesLoop (fun w => Except.ok (gq w)) ws =
      Except.ok (ws.filterMap (fun w => ((gq w).head?).map (fun s => s.descriptor)),
        ws.filterMap (fun w => ((gq w).head?).map graphDescriptor)) := by
  intro ws
  induction ws with
  | nil => rfl
  | cons w ws ih =>
    cases hgq : gq w with
    | nil => simp [getIdentitiesLoop, hgq, ih]
    | cons s t => simp [getIdentitiesLoop, hgq, ih]

/-- An error of the `getIdentities` loop always originates from a graph
query on one of the requested names. -/
theorem getIdentitiesLoop_error (gq : String → Except String (List GraphSubject)) :
    ∀ ws e, getIdentitiesLoop gq ws = Except.error e → ∃ w ∈ ws, gq w = Except.error e := by
  intro ws
  induction ws with
  | nil => intro e h; simp [getIdentitiesLoop] at h
  | cons w ws ih =>
    intro e h
    cases hgq : gq w with
    | error e2 =>
      simp only [getIdentitiesLoop, hgq] at h
      injection h with h2
      subst h2
      exact ⟨w, List.mem_cons_self w ws, hgq⟩
    | ok possible =>
      cases hr : getIdentitiesLoop gq ws with
      | error e2 =>
        simp only [getIdentitiesLoop, hgq, hr] at h
        injection h with h2
        subst h2
        obtain ⟨w2, hw2, hl2⟩ := ih e2 hr
        exact ⟨w2, List.mem_cons_of_mem w hw2, hl2⟩
      | ok pair =>
        cases possible <;> simp [getIdentitiesLoop, hgq, hr] at h

/-- C8: identity resolution (both the legacy path and the graph path)
returns a descriptor for each requested name with at least one provider
match, taking the first match, and silently omits each name with zero
matches (the warning log is not modelled); an error is returned only when a
provider call itself fails. -/
theorem identityResolution_spec :
    (∀ (lk : String → List LegacyIdentity) (ws : List String),
      getLegacyIdentities (fun w => Except.ok (lk w)) ws =
        Except.ok (ws.filterMap (fun w => ((lk w).head?).map legacyDescriptor))) ∧
    (∀ (gq : String → List GraphSubject) (batch : List String → List LegacyIdentity)
      (ws : List String),
      getIdentities (fun w => Except.ok (gq w)) (fun v => Except.ok (batch v)) ws =
        Except.ok (ws.filterMap (fun w => ((gq w).head?).map graphDescriptor))) ∧
    (∀ (lookup : String → Except String (List LegacyIdentity)) (ws : List String)
      (e : String),
      getLegacyIdentities lookup ws = Except.error e →
        ∃ w ∈ ws, lookup w = Except.error e) ∧
    (∀ (gq : String → Except String (List GraphSubject))
      (batch : List String → Except String (List LegacyIdentity)) (ws : List String)
      (e : String),
      getIdentities gq batch ws = Except.error e →
        (∃ w ∈ ws, gq w = Except.error e) ∨ (∃ v, batch v = Except.error e)) := by
  refine ⟨getLegacyIdentities_ok, ?_, getLegacyIdentities_error, ?_⟩
  · intro gq batch ws
    simp [getIdentities, getIdentitiesLoop_ok]
  · intro gq batch ws e h
    cases hl : getIdentitiesLoop gq ws with
    | error e2 =>
      simp only [getIdentities, hl] at h
      injection h with h2
      subst h2
      exact Or.inl (getIdentitiesLoop_error gq ws e2 hl)
    | ok pair =>
      obtain ⟨vsid, descs⟩ := pair
      cases hb : batch vsid with
      | error e2 =>
        simp only [getIdentities, hl, hb] at h
        injection h with h2
        subst h2
        exact Or.inr ⟨vsid, hb⟩
      | ok legacy => simp [getIdentities, hl, hb] at h

/-- C8 witness: the error-propagation conjuncts applied to a failing
provider at the concrete name list `["alice"]`. -/
theorem identityResolution_spec_witness :
    (∃ w ∈ ["alice"],
      (fun _ : String => (Except.error "down" : Except String (List LegacyIdentity))) w =
        Except.error "down") ∧
    ((∃ w ∈ ["alice"],
      (fun _ : String => (Except.error "down" : Except String (List GraphSubject))) w =
        Except.error "down") ∨
      (∃ v, (fun _ : List String =>
        (Except.error "down" : Except String (List LegacyIdentity))) v =
          Except.error "down")) :=
  ⟨identityResolution_spec.2.2.1 _ ["alice"] "down" rfl,
   identityResolution_spec.2.2.2 _ _ ["alice"] "down" rfl⟩

/-- A key present in the left part of an appended association list is still
present in the whole. -/
theorem lookup_append_isSome (k : String) (l2 : List (String × List String)) :
    ∀ m : List (String × List String),
      (m.lookup k).isSome = true → ((m ++ l2).lookup k).isSome = true := by
  intro m
  induction m with
  | nil => intro h; simp [List.lookup] at h
  | cons a m ih =>
    intro h
    obtain ⟨k2, v⟩ := a
    by_cases hk : k == k2
    · simp [List.lookup, hk]
    · simp only [List.cons_append, List.lookup, hk] at h ⊢
      exact ih h

/-- A key absent from the left part of an appended association list is
looked up in the right part. -/
theorem lookup_append_right (k : String) (l2 : List (String × List String)) :
    ∀ m : List (String × List String),
      m.lookup k = none → (m ++ l2).lookup k = l2.lookup k := by
  intro m
  induction m with
  | nil => intro _; rfl
  | cons a m ih =>
    intro h
    obtain ⟨k2, v⟩ := a
    by_cases hk : k == k2
    · simp [List.lookup, hk] at h
    · simp only [List.cons_append, List.lookup, hk] at h ⊢
      exact ih h

/-- `ensureProjects` never removes an existing key. -/
theorem ensureProjects_isSome (k : String) :
    ∀ (ps : List String) (m : List (String × List String)),
      (m.lookup k).isSome = true → ((ensureProjects m ps).lookup k).isSome = true := by
  intro ps
  induction ps with
  | nil => intro m h; exact h
  | cons p ps ih =>
    intro m h
    simp only [ensureProjects]
    by_cases hp : (m.lookup p).isSome = true
    · rw [if_pos hp]
      exact ih m h
    · rw [if_neg hp]
      exact ih (m ++ [(p, [])]) (lookup_append_isSome k [(p, [])] m h)

/-- After `ensureProjects`, every project of the list has an entry. -/
theorem ensureProjects_mem (k : String) :
    ∀ (ps : List String) (m : List (String × List String)), k ∈ ps →
      ((ensureProjects m ps).lookup k).isSome = true := by
  intro ps
  induction ps with
  | nil => intro m h; cases h
  | cons p ps ih =>
    intro m h
    simp only [ensureProjects]
    rcases List.mem_cons.mp h with h1 | h2
    · subst h1
      by_cases hp : (m.lookup k).isSome = true
      · rw [if_pos hp]
        exact ensureProjects_isSome k ps m hp
      · rw [if_neg hp]
        apply ensureProjects_isSome
        rw [lookup_append_right k [(k, [])] m (by
          cases hm : m.lookup k
          · rfl
          · exact absurd (by rw [hm]; rfl) hp)]
        simp [List.lookup]
    · by_cases hp : (m.lookup p).isSome = true
      · rw [if_pos hp]
        exact ih m h2
      · rw [if_neg hp]
        exact ih (m ++ [(p, [])]) h2

/-- C5: every project of the allow-list receives an entry in the parsed
project-to-repositories map, and for a project with entry `subList` the
repository loop lists exactly the repositories that are not disabled, not a
skipped fork, and named in `subList` (or all remaining ones when `subList`
is empty, i.e. no explicit selection), converting them in order. -/
theorem GetRepositories_listing :
    (∀ (projects refs : List String) (m : List (String × List String)),
      ParseRepositoryReference projects refs = Except.ok m →
        ∀ p ∈ projects, ((m.lookup p).isSome) = true) ∧
    (∀ (sshAuth skipForks : Bool) (m : List (String × List String)) (pname : String)
      (subList : List String) (repos : List GitRepository),
      m.lookup pname = some subList →
        GetRepositoriesInProject sshAuth skipForks m pname repos =
          convertAll sshAuth (repos.filter (claimedRepositoryFilter skipForks subList))) := by
  constructor
  · intro projects refs m h p hp
    cases hpr : parseRepoRefs [] refs with
    | error e => simp [ParseRepositoryReference, hpr] at h
    | ok m0 =>
      simp only [ParseRepositoryReference, hpr] at h
      injection h with h2
      subst h2
      exact ensureProjects_mem p projects m0 hp
  · intro sshAuth skipForks m pname subList repos h
    induction repos with
    | nil => rfl
    | cons r rest ih =>
      simp only [GetRepositoriesInProject, List.filter_cons]
      cases hd : r.isDisabled with
      | true => simp [claimedRepositoryFilter, hd, ih]
      | false =>
        cases hf : skipForks && r.isFork.getD false with
        | true => simp [claimedRepositoryFilter, hd, hf, ih]
        | false =>
          rw [h]
          cases hemp : subList.isEmpty with
          | true =>
            have : claimedRepositoryFilter skipForks subList r = true := by
              simp [claimedRepositoryFilter, hd, hf, hemp]
            simp only [hd, hf, hemp, this, if_true, Bool.false_and, Bool.not_false,
              Bool.and_self, if_false]
            simp [convertAll, ih]
          | false =>
            cases hc : subList.contains r.name with
            | true =>
              have hpred : claimedRepositoryFilter skipForks subList r = true := by
                simp only [claimedRepositoryFilter, hd, hf, hemp, hc]
                simp
              simp only [hemp, hc, hpred]
              simp [convertAll, ih]
            | false =>
              have hpred : claimedRepositoryFilter skipForks subList r = false := by
                simp only [claimedRepositoryFilter, hd, hf, hemp, hc]
                simp
              simp only [hemp, hc, hpred]
              simp [ih]

/-- C5 witness: the parse guarantee and the listing equation at concrete
inputs (allow-list `["P"]`, no repository references; one enabled non-fork
repository against the sub-list `["repo1"]`). -/
theorem GetRepositories_listing_witness :
    ((([("P", [])] : List (String × List String)).lookup "P").isSome) = true ∧
    GetRepositoriesInProject false false [("P", ["repo1"])] "P" [sampleListedRepo] =
      convertAll false
        (List.filter (claimedRepositoryFilter false ["repo1"]) [sampleListedRepo]) :=
  ⟨GetRepositories_listing.1 ["P"] [] [("P", [])] rfl "P" (by simp),
   GetRepositories_listing.2 false false [("P", ["repo1"])] "P" ["repo1"]
     [sampleListedRepo] rfl⟩

end AzureDevOps
